import Mathlib

/-
  Verification development for the stochastic geometry volume estimator
  described by the repository's specification.  The repository's notebooks
  drive this estimator through the external library's scripting interface
  (openmc.VolumeCalculation, calculate_volumes, set_trigger, load_results,
  add_volume_information); the estimator itself is not shipped in the
  repository, so every definition below is modelled from the specification
  text and is marked accordingly.
-/

/-- Modelled from the spec (§3 BoundingBox): lower-left and upper-right 3D
corner coordinates of the axis-aligned sampling box.  The external library's
`VolumeCalculation(lower_left, upper_right, ...)` constructor is not in the
repository, so the record is reconstructed from the spec. -/
structure BoundingBox where
  xlo : ℚ
  ylo : ℚ
  zlo : ℚ
  xhi : ℚ
  yhi : ℚ
  zhi : ℚ
deriving DecidableEq

/-- Modelled from the spec (§3): the invariant that each upper coordinate is
at least the corresponding lower coordinate. -/
def BoundingBox.valid (b : BoundingBox) : Prop :=
  b.xlo ≤ b.xhi ∧ b.ylo ≤ b.yhi ∧ b.zlo ≤ b.zhi

/-- Modelled from the spec (§4.3): the volume of the sampling box. -/
def BoundingBox.volume (b : BoundingBox) : ℚ :=
  (b.xhi - b.xlo) * (b.yhi - b.ylo) * (b.zhi - b.zlo)

/-- Modelled from the spec (§4.1): a 3D point with rational coordinates. -/
structure Point3D where
  x : ℚ
  y : ℚ
  z : ℚ
deriving DecidableEq

/-- Modelled from the spec (§3 SampleCount): a mapping from domain id to
integer hit count, kept as an association list keyed by domain id. -/
abbrev SampleCount : Type := List (ℕ × ℕ)

/-- Modelled from the spec (§4.3): the hit count recorded for a domain id
(0 when the domain is not tracked). -/
def hitsOf : SampleCount → ℕ → ℕ
  | [], _ => 0
  | (d, h) :: rest, q => if d = q then h else hitsOf rest q

/-- Modelled from the spec (§4.3): increment the hit count of one domain. -/
def bump : SampleCount → ℕ → SampleCount
  | [], _ => []
  | (d, h) :: rest, q =>
    if d = q then (d, h + 1) :: bump rest q else (d, h) :: bump rest q

/-- Modelled from the spec (§4.3): total number of tallied hits. -/
def sumHits : SampleCount → ℕ
  | [] => 0
  | (_, h) :: rest => h + sumHits rest

/-- Modelled from the spec (§3): the domain ids tracked by a SampleCount. -/
def keysOf (sc : SampleCount) : List ℕ :=
  sc.map Prod.fst

/-- Modelled from the spec (§3): the zero SampleCount over a domain set. -/
def initCounts (domains : List ℕ) : SampleCount :=
  domains.map (fun d => (d, 0))

/-- Modelled from the spec (§4.3): the volume estimate
V_d = (hits_d / N) * V_box, in exact rational arithmetic. -/
def volumeOf (vbox : ℚ) (hits total : ℕ) : ℚ :=
  (hits : ℚ) / (total : ℚ) * vbox

/-- Modelled from the spec (§4.3): the binomial-proportion variance estimate
Var(V_d) = V_box^2 * (p_d * (1 - p_d) / N) with p_d = hits_d / N. -/
def varianceOf (vbox : ℚ) (hits total : ℕ) : ℚ :=
  vbox ^ 2 * ((hits : ℚ) / (total : ℚ) * (1 - (hits : ℚ) / (total : ℚ)) / (total : ℚ))

/-- Modelled from the spec (§4.2 and §8): the volume attributed to points
outside every tracked domain; outside points are not tallied but are counted
toward total_samples, so their count is the difference. -/
def outsideVolume (vbox : ℚ) (sc : SampleCount) (total : ℕ) : ℚ :=
  ((total - sumHits sc : ℕ) : ℚ) / (total : ℚ) * vbox

/-- Modelled from the spec (§3 TriggerSpec): the target metric kind. -/
inductive TriggerKind where
  | variance : TriggerKind
  | stdDev : TriggerKind
  | relErr : TriggerKind
deriving DecidableEq

/-- Modelled from the spec (§3 TriggerSpec): metric kind, numeric threshold,
and the domain the trigger watches. -/
structure TriggerSpec where
  kind : TriggerKind
  threshold : ℚ
  domain : ℕ
deriving DecidableEq

/-- Modelled from the spec (§4.4 Trigger Controller): decide whether one
trigger is satisfied by the current estimate.  The square-root comparisons
of the spec are encoded by their exact squared equivalents so that the
predicate is decidable; the correspondence with the spec's square-root
formulation is proved below. -/
def triggerSatisfied (vbox : ℚ) (sc : SampleCount) (total : ℕ) (t : TriggerSpec) : Bool :=
  match t.kind with
  | TriggerKind.variance =>
    decide (varianceOf vbox (hitsOf sc t.domain) total ≤ t.threshold)
  | TriggerKind.stdDev =>
    decide (0 ≤ t.threshold ∧
      varianceOf vbox (hitsOf sc t.domain) total ≤ t.threshold ^ 2)
  | TriggerKind.relErr =>
    decide (0 < volumeOf vbox (hitsOf sc t.domain) total ∧ 0 ≤ t.threshold ∧
      varianceOf vbox (hitsOf sc t.domain) total ≤
        (t.threshold * volumeOf vbox (hitsOf sc t.domain) total) ^ 2)

/-- Modelled from the spec (§4.1 Random Point Sampler): one step of a
linear-congruential pseudo-random generator with 64-bit state. -/
def lcgNext (s : ℕ) : ℕ :=
  (6364136223846793005 * s + 1442695040888963407) % 2 ^ 64

/-- Modelled from the spec (§4.1): the i-th raw pseudo-random state drawn
from a seed; same seed and same index always give the same state. -/
def lcgState (seed : ℕ) : ℕ → ℕ
  | 0 => lcgNext seed
  | i + 1 => lcgNext (lcgState seed i)

/-- Modelled from the spec (§4.1): the i-th uniform draw in [0, 1). -/
def unitSample (seed i : ℕ) : ℚ :=
  (lcgState seed i : ℚ) / 2 ^ 64

/-- Modelled from the spec (§4.1): the i-th sample point, one independent
uniform draw per axis scaled into the bounding box. -/
def samplePoint (b : BoundingBox) (seed i : ℕ) : Point3D :=
  ⟨b.xlo + unitSample seed (3 * i) * (b.xhi - b.xlo),
   b.ylo + unitSample seed (3 * i + 1) * (b.yhi - b.ylo),
   b.zlo + unitSample seed (3 * i + 2) * (b.zhi - b.zlo)⟩

/-- Modelled from the spec (§4.2, §4.3): classify one point with the external
oracle and tally it; outside points (classifier returns none) are discarded,
a matched point increments exactly its domain's count. -/
def tallyPoint (classify : Point3D → Option ℕ) (sc : SampleCount) (p : Point3D) : SampleCount :=
  match classify p with
  | none => sc
  | some d => bump sc d

/-- Modelled from the spec (§4.3 Sampling state): tally a whole batch. -/
def runBatch (classify : Point3D → Option ℕ) (sc : SampleCount)
    (pts : List Point3D) : SampleCount :=
  pts.foldl (tallyPoint classify) sc

/-- Modelled from the spec (§4.3): the points of the batch that starts at
sample index start and contains count samples. -/
def batchPoints (b : BoundingBox) (seed start count : ℕ) : List Point3D :=
  (List.range count).map (fun j => samplePoint b seed (start + j))

/-- Modelled from the spec (§3 Lifecycle): session configuration. -/
structure SessionConfig where
  box : BoundingBox
  domains : List ℕ
  batchSize : ℕ
  maxSamples : ℕ
  checkInterval : ℕ
  triggers : List TriggerSpec
  seed : ℕ

/-- Modelled from the spec (§4.3): the terminal states of a session. -/
inductive EndStatus where
  | converged : EndStatus
  | maxSamplesReached : EndStatus
deriving DecidableEq

/-- Modelled from the spec (§4.3): the per-batch state sequence of a session:
the SampleCount and total_samples after k batches, each batch drawing
batchSize points from the seeded sampler and tallying them. -/
def stateAfter (box : BoundingBox) (classify : Point3D → Option ℕ) (seed : ℕ)
    (domains : List ℕ) (batchSize : ℕ) : ℕ → SampleCount × ℕ
  | 0 => (initCounts domains, 0)
  | k + 1 =>
    let st := stateAfter box classify seed domains batchSize k
    (runBatch classify st.1 (batchPoints box seed st.2 batchSize), st.2 + batchSize)

/-- Modelled from the spec (§4.3): a check happens only when a trigger is
attached and total_samples is a positive multiple of the check interval. -/
def checkNow (cfg : SessionConfig) (total : ℕ) : Bool :=
  !cfg.triggers.isEmpty && decide (0 < total) && decide (total % cfg.checkInterval = 0)

/-- Modelled from the spec (§4.4): all attached triggers are satisfied. -/
def allSatisfied (cfg : SessionConfig) (sc : SampleCount) (total : ℕ) : Bool :=
  cfg.triggers.all (fun t => triggerSatisfied cfg.box.volume sc total t)

/-- Modelled from the spec (§4.3 state machine): the sampling loop.  At each
round it first reports convergence when a check is due and every trigger is
satisfied, otherwise terminates when max_samples is reached (Converged when
no trigger is attached, MaxSamplesReached otherwise), and otherwise samples
one more batch.  The fuel argument bounds the number of rounds. -/
def runLoop (classify : Point3D → Option ℕ) (cfg : SessionConfig) :
    ℕ → SampleCount → ℕ → SampleCount × ℕ × EndStatus
  | 0, sc, n => (sc, n, EndStatus.maxSamplesReached)
  | fuel + 1, sc, n =>
    if checkNow cfg n && allSatisfied cfg sc n then
      (sc, n, EndStatus.converged)
    else if cfg.maxSamples ≤ n then
      (sc, n, if cfg.triggers.isEmpty then EndStatus.converged else EndStatus.maxSamplesReached)
    else
      runLoop classify cfg fuel
        (runBatch classify sc (batchPoints cfg.box cfg.seed n cfg.batchSize))
        (n + cfg.batchSize)

/-- Modelled from the spec (§3 Lifecycle): run a whole session from the zero
state; the fuel maxSamples + 1 suffices for any positive batch size. -/
def runSession (classify : Point3D → Option ℕ) (cfg : SessionConfig) :
    SampleCount × ℕ × EndStatus :=
  runLoop classify cfg (cfg.maxSamples + 1) (initCounts cfg.domains) 0

/-- Modelled from the spec (§4.5): the per-domain estimates produced by the
Result Aggregator: domain id, volume estimate, and variance estimate. -/
def estimatesOf (vbox : ℚ) (sc : SampleCount) (total : ℕ) : List (ℕ × ℚ × ℚ) :=
  sc.map (fun e => (e.1, volumeOf vbox e.2 total, varianceOf vbox e.2 total))

/-- Modelled from the spec (§4.5, §7): frozen results with the warning flag
that is set when the session ended by reaching max_samples. -/
structure Results where
  perDomain : List (ℕ × ℚ × ℚ)
  incomplete : Bool
deriving DecidableEq

/-- Modelled from the spec (§4.5 Result Aggregator): freeze a session's
final state into Results. -/
def finalize (vbox : ℚ) (sc : SampleCount) (total : ℕ) (st : EndStatus) : Results :=
  ⟨estimatesOf vbox sc total, decide (st = EndStatus.maxSamplesReached)⟩

/-- Modelled from the spec (§6 Persisted state layout): a flat record per
domain of (domain_id, hits, total_samples, box_volume). -/
structure PersistedRecord where
  domainId : ℕ
  hits : ℕ
  totalSamples : ℕ
  boxVolume : ℚ
deriving DecidableEq

/-- Modelled from the spec (§4.5): serialize a finished session. -/
def serializeResults (vbox : ℚ) (sc : SampleCount) (total : ℕ) : List PersistedRecord :=
  sc.map (fun e => ⟨e.1, e.2, total, vbox⟩)

/-- Modelled from the spec (§4.5 load_results): reconstruct the per-domain
estimates from persisted records without re-sampling. -/
def loadResults (recs : List PersistedRecord) : List (ℕ × ℚ × ℚ) :=
  recs.map (fun r =>
    (r.domainId, volumeOf r.boxVolume r.hits r.totalSamples,
      varianceOf r.boxVolume r.hits r.totalSamples))

/-- Modelled from the spec (§3 Domain) and the notebook's
add_volume_information call: a geometry-side domain object carrying an
optional volume attribute. -/
structure DomainObject where
  id : ℕ
  volume : Option ℚ
deriving DecidableEq

/-- Modelled from the spec (§4.5): look up the estimate for a domain id. -/
def lookupEstimate : List (ℕ × ℚ × ℚ) → ℕ → Option (ℚ × ℚ)
  | [], _ => none
  | e :: rest, d => if e.1 = d then some e.2 else lookupEstimate rest d

/-- Modelled from the spec and the notebook's
geometry.add_volume_information(vc) call: apply loaded volume results to the
geometry, storing only the nominal (mean) volume on each matched domain
object. -/
def add_volume_information (geom : List DomainObject) (res : List (ℕ × ℚ × ℚ)) :
    List DomainObject :=
  geom.map (fun obj =>
    match lookupEstimate res obj.id with
    | none => obj
    | some est => ⟨obj.id, some est.1⟩)

/-- Bumping a domain that is not tracked leaves the SampleCount unchanged. -/
theorem bump_not_mem (sc : SampleCount) (d : ℕ) (h : d ∉ keysOf sc) : bump sc d = sc := by
  induction sc with
  | nil => rfl
  | cons e rest ih =>
    obtain ⟨a, b⟩ := e
    simp only [keysOf, List.map_cons, List.mem_cons, not_or] at h
    have had : ¬a = d := fun hh => h.1 hh.symm
    simp only [bump, if_neg had]
    rw [ih (by simpa [keysOf] using h.2)]

/-- Bumping a tracked domain increments its hit count by exactly one. -/
theorem hitsOf_bump_self (sc : SampleCount) (d : ℕ) (h : d ∈ keysOf sc) :
    hitsOf (bump sc d) d = hitsOf sc d + 1 := by
  induction sc with
  | nil => simp [keysOf] at h
  | cons e rest ih =>
    obtain ⟨a, b⟩ := e
    by_cases had : a = d
    · simp [bump, hitsOf, had]
    · simp only [keysOf, List.map_cons, List.mem_cons] at h
      rcases h with h | h
      · exact absurd h.symm had
      · simp only [bump, if_neg had, hitsOf]
        exact ih (by simpa [keysOf] using h)

/-- Bumping one domain leaves every other domain's hit count unchanged. -/
theorem hitsOf_bump_ne (sc : SampleCount) (d q : ℕ) (h : q ≠ d) :
    hitsOf (bump sc d) q = hitsOf sc q := by
  induction sc with
  | nil => rfl
  | cons e rest ih =>
    obtain ⟨a, b⟩ := e
    by_cases had : a = d
    · subst had
      simp only [bump, if_pos rfl, hitsOf]
      rw [if_neg (fun hq : a = q => h hq.symm), if_neg (fun hq : a = q => h hq.symm), ih]
    · simp only [bump, if_neg had, hitsOf]
      by_cases haq : a = q
      · rw [if_pos haq, if_pos haq]
      · rw [if_neg haq, if_neg haq, ih]

/-- Hit counts never decrease under a bump. -/
theorem hitsOf_bump_le (sc : SampleCount) (d q : ℕ) :
    hitsOf sc q ≤ hitsOf (bump sc d) q := by
  by_cases hq : q = d
  · subst hq
    by_cases hm : q ∈ keysOf sc
    · rw [hitsOf_bump_self sc q hm]
      omega
    · rw [bump_not_mem sc q hm]
  · rw [hitsOf_bump_ne sc d q hq]

/-- Bumping preserves the tracked domain-id list. -/
theorem keysOf_bump (sc : SampleCount) (d : ℕ) : keysOf (bump sc d) = keysOf sc := by
  induction sc with
  | nil => rfl
  | cons e rest ih =>
    obtain ⟨a, b⟩ := e
    by_cases had : a = d
    · simp only [bump, if_pos had, keysOf, List.map_cons]
      rw [show (List.map Prod.fst (bump rest d) : List ℕ) = keysOf (bump rest d) from rfl, ih]
      rfl
    · simp only [bump, if_neg had, keysOf, List.map_cons]
      rw [show (List.map Prod.fst (bump rest d) : List ℕ) = keysOf (bump rest d) from rfl, ih]
      rfl

/-- With distinct tracked domains, a bump of a tracked domain adds exactly one
to the total tallied hit count. -/
theorem sumHits_bump (sc : SampleCount) (d : ℕ) (hnd : (keysOf sc).Nodup)
    (hm : d ∈ keysOf sc) : sumHits (bump sc d) = sumHits sc + 1 := by
  induction sc with
  | nil => simp [keysOf] at hm
  | cons e rest ih =>
    obtain ⟨a, b⟩ := e
    simp only [keysOf, List.map_cons, List.nodup_cons] at hnd
    by_cases had : a = d
    · subst had
      simp only [bump, if_pos rfl, sumHits]
      rw [bump_not_mem rest a (by simpa [keysOf] using hnd.1)]
      omega
    · simp only [keysOf, List.map_cons, List.mem_cons] at hm
      rcases hm with hm | hm
      · exact absurd hm.symm had
      · simp only [bump, if_neg had, sumHits]
        rw [ih (by simpa [keysOf] using hnd.2) (by simpa [keysOf] using hm)]
        omega

/-- The hit count of any single domain is at most the total tallied count. -/
theorem hitsOf_le_sumHits (sc : SampleCount) (d : ℕ) : hitsOf sc d ≤ sumHits sc := by
  induction sc with
  | nil => simp [hitsOf, sumHits]
  | cons e rest ih =>
    obtain ⟨a, b⟩ := e
    by_cases had : a = d
    · simp only [hitsOf, if_pos had, sumHits]
      omega
    · simp only [hitsOf, if_neg had, sumHits]
      omega

/-- Tallying one point preserves the tracked domain-id list. -/
theorem keysOf_tallyPoint (classify : Point3D → Option ℕ) (sc : SampleCount) (p : Point3D) :
    keysOf (tallyPoint classify sc p) = keysOf sc := by
  unfold tallyPoint
  cases classify p with
  | none => rfl
  | some d => exact keysOf_bump sc d

/-- Tallying one point adds at most one to the total tallied hit count. -/
theorem sumHits_tallyPoint_le (classify : Point3D → Option ℕ) (sc : SampleCount)
    (p : Point3D) (hnd : (keysOf sc).Nodup) :
    sumHits (tallyPoint classify sc p) ≤ sumHits sc + 1 := by
  unfold tallyPoint
  cases classify p with
  | none =>
    show sumHits sc ≤ sumHits sc + 1
    omega
  | some d =>
    show sumHits (bump sc d) ≤ sumHits sc + 1
    by_cases hm : d ∈ keysOf sc
    · rw [sumHits_bump sc d hnd hm]
    · rw [bump_not_mem sc d hm]
      omega

/-- Tallying one point never decreases any domain's hit count. -/
theorem hitsOf_tallyPoint_le (classify : Point3D → Option ℕ) (sc : SampleCount)
    (p : Point3D) (q : ℕ) : hitsOf sc q ≤ hitsOf (tallyPoint classify sc p) q := by
  unfold tallyPoint
  cases classify p with
  | none => exact le_refl _
  | some d => exact hitsOf_bump_le sc d q

/-- Tallying a batch preserves the tracked domain-id list. -/
theorem keysOf_runBatch (classify : Point3D → Option ℕ) (pts : List Point3D) :
    ∀ sc : SampleCount, keysOf (runBatch classify sc pts) = keysOf sc := by
  induction pts with
  | nil => intro sc; rfl
  | cons p rest ih =>
    intro sc
    show keysOf (runBatch classify (tallyPoint classify sc p) rest) = keysOf sc
    rw [ih (tallyPoint classify sc p), keysOf_tallyPoint]

/-- Tallying a batch adds at most one hit per point of the batch. -/
theorem sumHits_runBatch_le (classify : Point3D → Option ℕ) (pts : List Point3D) :
    ∀ sc : SampleCount, (keysOf sc).Nodup →
      sumHits (runBatch classify sc pts) ≤ sumHits sc + pts.length := by
  induction pts with
  | nil => intro sc _; simp [runBatch]
  | cons p rest ih =>
    intro sc hnd
    have h1 : sumHits (runBatch classify (tallyPoint classify sc p) rest) ≤
        sumHits (tallyPoint classify sc p) + rest.length := by
      apply ih
      rw [keysOf_tallyPoint]
      exact hnd
    have h2 := sumHits_tallyPoint_le classify sc p hnd
    show sumHits (runBatch classify (tallyPoint classify sc p) rest) ≤
      sumHits sc + (p :: rest).length
    simp only [List.length_cons]
    omega

/-- Tallying a batch never decreases any domain's hit count. -/
theorem hitsOf_runBatch_le (classify : Point3D → Option ℕ) (pts : List Point3D) :
    ∀ (sc : SampleCount) (q : ℕ), hitsOf sc q ≤ hitsOf (runBatch classify sc pts) q := by
  induction pts with
  | nil => intro sc q; exact le_refl _
  | cons p rest ih =>
    intro sc q
    calc hitsOf sc q ≤ hitsOf (tallyPoint classify sc p) q :=
          hitsOf_tallyPoint_le classify sc p q
      _ ≤ hitsOf (runBatch classify (tallyPoint classify sc p) rest) q :=
          ih (tallyPoint classify sc p) q

/-- The zero SampleCount tracks exactly the given domains. -/
theorem keysOf_initCounts (domains : List ℕ) : keysOf (initCounts domains) = domains := by
  induction domains with
  | nil => rfl
  | cons d rest ih =>
    simp only [initCounts, keysOf, List.map_cons] at *
    rw [ih]

/-- The zero SampleCount has no tallied hits. -/
theorem sumHits_initCounts (domains : List ℕ) : sumHits (initCounts domains) = 0 := by
  induction domains with
  | nil => rfl
  | cons d rest ih =>
    simp only [initCounts, sumHits, List.map_cons] at *
    omega

/-- After k batches the session has seen exactly k * batchSize samples. -/
theorem stateAfter_total (box : BoundingBox) (classify : Point3D → Option ℕ) (seed : ℕ)
    (domains : List ℕ) (b : ℕ) (k : ℕ) :
    (stateAfter box classify seed domains b k).2 = k * b := by
  induction k with
  | zero => simp [stateAfter]
  | succ k ih =>
    simp only [stateAfter, ih]
    ring

/-- The tracked domain-id list never changes during a run. -/
theorem keysOf_stateAfter (box : BoundingBox) (classify : Point3D → Option ℕ) (seed : ℕ)
    (domains : List ℕ) (b : ℕ) (k : ℕ) :
    keysOf (stateAfter box classify seed domains b k).1 = domains := by
  induction k with
  | zero => exact keysOf_initCounts domains
  | succ k ih =>
    simp only [stateAfter]
    rw [keysOf_runBatch, ih]

/-- The batch starting at a given sample index has batchSize points. -/
theorem batchPoints_length (box : BoundingBox) (seed start count : ℕ) :
    (batchPoints box seed start count).length = count := by
  simp [batchPoints]

/-- With distinct tracked domains, the tallied hits never exceed the total
sample count. -/
theorem sumHits_stateAfter_le (box : BoundingBox) (classify : Point3D → Option ℕ)
    (seed : ℕ) (domains : List ℕ) (b : ℕ) (hnd : domains.Nodup) (k : ℕ) :
    sumHits (stateAfter box classify seed domains b k).1 ≤
      (stateAfter box classify seed domains b k).2 := by
  induction k with
  | zero => simp [stateAfter, sumHits_initCounts]
  | succ k ih =>
    simp only [stateAfter]
    have hkeys : (keysOf (stateAfter box classify seed domains b k).1).Nodup := by
      rw [keysOf_stateAfter]
      exact hnd
    have h1 := sumHits_runBatch_le classify
      (batchPoints box seed (stateAfter box classify seed domains b k).2 b)
      (stateAfter box classify seed domains b k).1 hkeys
    rw [batchPoints_length] at h1
    omega

/-- The volume estimates over a SampleCount sum to the tallied fraction of
the box volume. -/
theorem sum_estimates (vbox : ℚ) (sc : SampleCount) (n : ℕ) :
    ((estimatesOf vbox sc n).map (fun e => e.2.1)).sum =
      (sumHits sc : ℚ) / (n : ℚ) * vbox := by
  induction sc with
  | nil => simp [estimatesOf, sumHits]
  | cons e rest ih =>
    obtain ⟨d, h⟩ := e
    simp only [estimatesOf, List.map_cons, List.sum_cons] at *
    rw [ih]
    simp only [volumeOf, sumHits]
    push_cast
    ring

/-- Exact partition identity: when the tallied hits do not exceed a positive
total, the per-domain volumes plus the outside volume equal the box volume. -/
theorem partition_algebra (vbox : ℚ) (sc : SampleCount) (n : ℕ)
    (hle : sumHits sc ≤ n) (hn : 0 < n) :
    ((estimatesOf vbox sc n).map (fun e => e.2.1)).sum + outsideVolume vbox sc n = vbox := by
  rw [sum_estimates]
  unfold outsideVolume
  rw [Nat.cast_sub hle]
  have hne : (n : ℚ) ≠ 0 := by
    exact_mod_cast Nat.pos_iff_ne_zero.mp hn
  field_simp
  ring

/-- A session loop reports convergence only when no trigger is attached or
every attached trigger is satisfied at the reported state. -/
theorem runLoop_converged_allSatisfied (classify : Point3D → Option ℕ) (cfg : SessionConfig) :
    ∀ (fuel : ℕ) (sc : SampleCount) (n : ℕ) (sc' : SampleCount) (n' : ℕ),
      runLoop classify cfg fuel sc n = (sc', n', EndStatus.converged) →
      cfg.triggers = [] ∨ allSatisfied cfg sc' n' = true := by
  intro fuel
  induction fuel with
  | zero =>
    intro sc n sc' n' h
    simp only [runLoop, Prod.mk.injEq] at h
    exact absurd h.2.2 (by simp)
  | succ fuel ih =>
    intro sc n sc' n' h
    rw [runLoop] at h
    by_cases h1 : (checkNow cfg n && allSatisfied cfg sc n) = true
    · rw [if_pos h1] at h
      simp only [Prod.mk.injEq] at h
      right
      rw [← h.1, ← h.2.1]
      exact ((Bool.and_eq_true _ _).mp h1).2
    · rw [if_neg h1] at h
      by_cases h2 : cfg.maxSamples ≤ n
      · rw [if_pos h2] at h
        by_cases h3 : cfg.triggers.isEmpty = true
        · left
          exact List.isEmpty_iff.mp h3
        · rw [if_neg h3] at h
          simp only [Prod.mk.injEq] at h
          exact absurd h.2.2 (by simp)
      · rw [if_neg h2] at h
        exact ih _ _ _ _ h

/-- When a check is due and every trigger is satisfied, the loop stops right
there: no further batch is sampled. -/
theorem runLoop_stops_at_check (classify : Point3D → Option ℕ) (cfg : SessionConfig)
    (fuel : ℕ) (sc : SampleCount) (n : ℕ)
    (hchk : checkNow cfg n = true) (hsat : allSatisfied cfg sc n = true) :
    runLoop classify cfg (fuel + 1) sc n = (sc, n, EndStatus.converged) := by
  rw [runLoop, if_pos (by rw [hchk, hsat]; rfl)]

/-- When not every trigger is satisfied and max_samples is not yet reached,
the loop samples another batch and continues. -/
theorem runLoop_continues (classify : Point3D → Option ℕ) (cfg : SessionConfig)
    (fuel : ℕ) (sc : SampleCount) (n : ℕ)
    (hns : allSatisfied cfg sc n = false) (hlt : n < cfg.maxSamples) :
    runLoop classify cfg (fuel + 1) sc n =
      runLoop classify cfg fuel
        (runBatch classify sc (batchPoints cfg.box cfg.seed n cfg.batchSize))
        (n + cfg.batchSize) := by
  rw [runLoop, if_neg (by rw [hns, Bool.and_false]; simp), if_neg (Nat.not_le.mpr hlt)]

/-- The standard-deviation trigger's squared comparison agrees with the
spec's square-root formulation. -/
theorem stdDev_satisfied_iff_sqrt (vbox t : ℚ) (sc : SampleCount) (N dom : ℕ) :
    triggerSatisfied vbox sc N ⟨TriggerKind.stdDev, t, dom⟩ = true ↔
      Real.sqrt ((varianceOf vbox (hitsOf sc dom) N : ℚ) : ℝ) ≤ (t : ℝ) := by
  rw [Real.sqrt_le_iff]
  simp only [triggerSatisfied, decide_eq_true_eq]
  constructor
  · intro h
    refine ⟨by exact_mod_cast h.1, ?_⟩
    have := h.2
    rw [show ((t : ℝ)) ^ 2 = ((t ^ 2 : ℚ) : ℝ) by push_cast; ring]
    exact_mod_cast this
  · intro h
    refine ⟨by exact_mod_cast h.1, ?_⟩
    have := h.2
    rw [show ((t : ℝ)) ^ 2 = ((t ^ 2 : ℚ) : ℝ) by push_cast; ring] at this
    exact_mod_cast this

/-- Tallying is pointwise in the classifier: classifiers that agree on every
point tally every batch identically. -/
theorem runBatch_congr (c1 c2 : Point3D → Option ℕ) (hc : ∀ p, c1 p = c2 p)
    (pts : List Point3D) : ∀ sc : SampleCount, runBatch c1 sc pts = runBatch c2 sc pts := by
  induction pts with
  | nil => intro sc; rfl
  | cons p rest ih =>
    intro sc
    show runBatch c1 (tallyPoint c1 sc p) rest = runBatch c2 (tallyPoint c2 sc p) rest
    rw [show tallyPoint c1 sc p = tallyPoint c2 sc p by unfold tallyPoint; rw [hc p]]
    exact ih (tallyPoint c2 sc p)

/-- Stripping the variance component from loaded estimates commutes with
estimate lookup. -/
theorem lookupEstimate_strip (res : List (ℕ × ℚ × ℚ)) (q : ℕ) :
    lookupEstimate (res.map (fun e => (e.1, e.2.1, 0))) q =
      (lookupEstimate res q).map (fun est => (est.1, (0 : ℚ))) := by
  induction res with
  | nil => rfl
  | cons e rest ih =>
    by_cases he : e.1 = q
    · simp [lookupEstimate, he]
    · simp [lookupEstimate, he, ih]

/-- C1: for every tracked domain with hit count hits after N total samples in
a box of volume V_box, the reported estimate carries the volume
(hits / N) * V_box and the variance V_box^2 * (p (1 - p) / N) whose square
root is the reported standard deviation; a domain with zero hits reports
volume 0 and standard deviation 0, a well-defined value rather than NaN. -/
theorem C1_volume_stddev_formula (vbox : ℚ) (sc : SampleCount) (n : ℕ) (st : EndStatus)
    (d h : ℕ) (hmem : (d, h) ∈ sc) :
    (d, (h : ℚ) / (n : ℚ) * vbox,
        vbox ^ 2 * ((h : ℚ) / (n : ℚ) * (1 - (h : ℚ) / (n : ℚ)) / (n : ℚ)))
      ∈ (finalize vbox sc n st).perDomain
    ∧ (h = 0 → volumeOf vbox h n = 0 ∧
        Real.sqrt ((varianceOf vbox h n : ℚ) : ℝ) = 0) := by
  constructor
  · exact List.mem_map_of_mem
      (fun e : ℕ × ℕ => (e.1, volumeOf vbox e.2 n, varianceOf vbox e.2 n)) hmem
  · intro h0
    subst h0
    refine ⟨by simp [volumeOf], ?_⟩
    rw [show varianceOf vbox 0 n = 0 by simp [varianceOf]]
    simp

/-- Witness for C1 at a concrete zero-hit domain. -/
theorem C1_volume_stddev_formula_witness :
    volumeOf 1 0 4 = 0 ∧ Real.sqrt ((varianceOf 1 0 4 : ℚ) : ℝ) = 0 :=
  (C1_volume_stddev_formula 1 [(1, 0)] 4 EndStatus.converged 1 0 (by simp)).2 rfl

/-- C2: at every point during a run (after any positive number of batches,
for distinct tracked domains) the hit counts partition the total sample
count exactly, so the per-domain volume estimates plus the outside volume
equal the box volume exactly. -/
theorem C2_partition (box : BoundingBox) (classify : Point3D → Option ℕ) (seed : ℕ)
    (domains : List ℕ) (b k : ℕ) (hnd : domains.Nodup) (hk : 0 < k) (hb : 0 < b) :
    ((estimatesOf box.volume (stateAfter box classify seed domains b k).1
        (stateAfter box classify seed domains b k).2).map (fun e => e.2.1)).sum
      + outsideVolume box.volume (stateAfter box classify seed domains b k).1
          (stateAfter box classify seed domains b k).2
      = box.volume := by
  apply partition_algebra
  · exact sumHits_stateAfter_le box classify seed domains b hnd k
  · rw [stateAfter_total]
    exact Nat.mul_pos hk hb

/-- Witness for C2 after one batch of one sample in the worked-example box. -/
theorem C2_partition_witness :
    ((estimatesOf (BoundingBox.mk 0 0 0 2 2 2).volume
        (stateAfter (BoundingBox.mk 0 0 0 2 2 2) (fun _ => some 1) 0 [1, 2] 1 1).1
        (stateAfter (BoundingBox.mk 0 0 0 2 2 2) (fun _ => some 1) 0 [1, 2] 1 1).2).map
          (fun e => e.2.1)).sum
      + outsideVolume (BoundingBox.mk 0 0 0 2 2 2).volume
          (stateAfter (BoundingBox.mk 0 0 0 2 2 2) (fun _ => some 1) 0 [1, 2] 1 1).1
          (stateAfter (BoundingBox.mk 0 0 0 2 2 2) (fun _ => some 1) 0 [1, 2] 1 1).2
      = (BoundingBox.mk 0 0 0 2 2 2).volume :=
  C2_partition (BoundingBox.mk 0 0 0 2 2 2) (fun _ => some 1) 0 [1, 2] 1 1
    (by decide) (by decide) (by decide)

/-- C3: serializing a finished session's results and reloading them yields,
for every domain, exactly the same volume and variance estimates as the
in-memory originals, with no re-sampling; in exact arithmetic the round trip
is the identity. -/
theorem C3_serialize_load_roundtrip (vbox : ℚ) (sc : SampleCount) (n : ℕ) :
    loadResults (serializeResults vbox sc n) = estimatesOf vbox sc n := by
  induction sc with
  | nil => rfl
  | cons e rest ih =>
    show (e.1, volumeOf vbox e.2 n, varianceOf vbox e.2 n) ::
        loadResults (serializeResults vbox rest n)
      = (e.1, volumeOf vbox e.2 n, varianceOf vbox e.2 n) :: estimatesOf vbox rest n
    rw [ih]

/-- C10: applying loaded volume results to the geometry stores exactly the
nominal (mean) volume on each matched domain object, and the standard
deviation is discarded at this interface: replacing every loaded variance by
zero changes nothing. -/
theorem C10_nominal_volume_applied (geom : List DomainObject) (res : List (ℕ × ℚ × ℚ))
    (obj : DomainObject) (v sd : ℚ) (hobj : obj ∈ geom)
    (hlook : lookupEstimate res obj.id = some (v, sd)) :
    (⟨obj.id, some v⟩ : DomainObject) ∈ add_volume_information geom res
    ∧ add_volume_information geom res
        = add_volume_information geom (res.map (fun e => (e.1, e.2.1, 0))) := by
  constructor
  · unfold add_volume_information
    refine List.mem_map.mpr ⟨obj, hobj, ?_⟩
    simp [hlook]
  · unfold add_volume_information
    apply List.map_congr_left
    intro o _
    rw [lookupEstimate_strip]
    cases hl : lookupEstimate res o.id with
    | none => rfl
    | some est => rfl

/-- Witness for C10 on a one-object geometry and one loaded record. -/
theorem C10_nominal_volume_applied_witness :
    (⟨1, some 5⟩ : DomainObject) ∈
        add_volume_information [⟨1, none⟩] [(1, 5, 7)]
    ∧ add_volume_information [⟨1, none⟩] [(1, 5, 7)]
        = add_volume_information [⟨1, none⟩]
            ([(1, 5, 7)].map (fun e => (e.1, e.2.1, 0))) :=
  C10_nominal_volume_applied [⟨1, none⟩] [(1, 5, 7)] ⟨1, none⟩ 5 7
    (List.mem_singleton.mpr rfl) rfl

/-- C4: a standard_deviation trigger is satisfied exactly when
sqrt(Var(V_d)) <= threshold; a session that reports convergence with such a
trigger attached satisfies Var(V_d) <= threshold^2 at its reported
total_samples; and at the first check where every trigger holds the loop
stops immediately without sampling further. -/
theorem C4_stdDev_trigger_stop (classify : Point3D → Option ℕ) (cfg : SessionConfig)
    (fuel : ℕ) (sc : SampleCount) (n : ℕ) (sc' : SampleCount) (n' : ℕ)
    (t : ℚ) (d : ℕ) (sc₀ : SampleCount) (N : ℕ) (sc₁ : SampleCount) (n₁ fuel₁ : ℕ)
    (hmem : TriggerSpec.mk TriggerKind.stdDev t d ∈ cfg.triggers)
    (hrun : runLoop classify cfg fuel sc n = (sc', n', EndStatus.converged))
    (hchk : checkNow cfg n₁ = true) (hsat : allSatisfied cfg sc₁ n₁ = true) :
    (triggerSatisfied cfg.box.volume sc₀ N ⟨TriggerKind.stdDev, t, d⟩ = true ↔
        Real.sqrt ((varianceOf cfg.box.volume (hitsOf sc₀ d) N : ℚ) : ℝ) ≤ (t : ℝ))
    ∧ varianceOf cfg.box.volume (hitsOf sc' d) n' ≤ t ^ 2
    ∧ runLoop classify cfg (fuel₁ + 1) sc₁ n₁ = (sc₁, n₁, EndStatus.converged) := by
  refine ⟨stdDev_satisfied_iff_sqrt cfg.box.volume t sc₀ N d, ?_,
    runLoop_stops_at_check classify cfg fuel₁ sc₁ n₁ hchk hsat⟩
  rcases runLoop_converged_allSatisfied classify cfg fuel sc n sc' n' hrun with h | h
  · rw [h] at hmem
    simp at hmem
  · unfold allSatisfied at h
    have h2 : triggerSatisfied cfg.box.volume sc' n' ⟨TriggerKind.stdDev, t, d⟩ = true :=
      List.all_eq_true.mp h _ hmem
    simp only [triggerSatisfied, decide_eq_true_eq] at h2
    exact h2.2

/-- Witness for C4 on a concrete converging session. -/
theorem C4_stdDev_trigger_stop_witness :
    (triggerSatisfied (BoundingBox.mk 0 0 0 1 1 1).volume [(1, 0)] 4
        ⟨TriggerKind.stdDev, 1, 1⟩ = true ↔
      Real.sqrt ((varianceOf (BoundingBox.mk 0 0 0 1 1 1).volume
          (hitsOf [(1, 0)] 1) 4 : ℚ) : ℝ) ≤ ((1 : ℚ) : ℝ))
    ∧ varianceOf (BoundingBox.mk 0 0 0 1 1 1).volume (hitsOf [(1, 1)] 1) 1 ≤ 1 ^ 2 := by
  have h := C4_stdDev_trigger_stop (fun _ => some 1)
    ⟨⟨0, 0, 0, 1, 1, 1⟩, [1], 1, 5, 1, [⟨TriggerKind.stdDev, 1, 1⟩], 0⟩
    6 (initCounts [1]) 0 [(1, 1)] 1 1 1 [(1, 0)] 4 [(1, 1)] 1 3
    (by simp)
    (by norm_num [runLoop, checkNow, allSatisfied, triggerSatisfied, varianceOf,
      volumeOf, hitsOf, runBatch, batchPoints, tallyPoint, bump, initCounts,
      List.range_succ, BoundingBox.volume])
    (by norm_num [checkNow])
    (by norm_num [allSatisfied, triggerSatisfied, varianceOf, hitsOf, BoundingBox.volume])
  exact ⟨h.1, h.2.1⟩

/-- C5: a session with several attached triggers reports convergence only at
a state where every attached trigger is satisfied, and at any state where
not all triggers hold (so in particular where only a strict subset holds)
with max_samples not yet reached, the loop samples another batch instead of
terminating. -/
theorem C5_all_triggers_required (classify : Point3D → Option ℕ) (cfg : SessionConfig)
    (fuel : ℕ) (sc : SampleCount) (n : ℕ) (sc' : SampleCount) (n' : ℕ)
    (t : TriggerSpec) (sc₂ : SampleCount) (n₂ fuel₂ : ℕ)
    (hne : cfg.triggers ≠ [])
    (hrun : runLoop classify cfg fuel sc n = (sc', n', EndStatus.converged))
    (hmem : t ∈ cfg.triggers)
    (hnotall : allSatisfied cfg sc₂ n₂ = false)
    (hlt : n₂ < cfg.maxSamples) :
    triggerSatisfied cfg.box.volume sc' n' t = true
    ∧ runLoop classify cfg (fuel₂ + 1) sc₂ n₂ =
        runLoop classify cfg fuel₂
          (runBatch classify sc₂ (batchPoints cfg.box cfg.seed n₂ cfg.batchSize))
          (n₂ + cfg.batchSize) := by
  refine ⟨?_, runLoop_continues classify cfg fuel₂ sc₂ n₂ hnotall hlt⟩
  rcases runLoop_converged_allSatisfied classify cfg fuel sc n sc' n' hrun with h | h
  · exact absurd h hne
  · unfold allSatisfied at h
    exact List.all_eq_true.mp h _ hmem

/-- Witness for C5: a session with two triggers in which the state where only
the variance trigger holds does not terminate, and the converged state
satisfies the relative-error trigger too. -/
theorem C5_all_triggers_required_witness :
    triggerSatisfied
        (SessionConfig.mk ⟨0, 0, 0, 1, 1, 1⟩ [1] 1 5 1
          [⟨TriggerKind.variance, 1, 1⟩, ⟨TriggerKind.relErr, 1, 1⟩] 0).box.volume
        [(1, 1)] 1 ⟨TriggerKind.relErr, 1, 1⟩ = true := by
  have h := C5_all_triggers_required (fun _ => some 1)
    ⟨⟨0, 0, 0, 1, 1, 1⟩, [1], 1, 5, 1,
      [⟨TriggerKind.variance, 1, 1⟩, ⟨TriggerKind.relErr, 1, 1⟩], 0⟩
    6 (initCounts [1]) 0 [(1, 1)] 1 ⟨TriggerKind.relErr, 1, 1⟩ [(1, 0)] 1 3
    (by simp)
    (by norm_num [runLoop, checkNow, allSatisfied, triggerSatisfied, varianceOf,
      volumeOf, hitsOf, runBatch, batchPoints, tallyPoint, bump, initCounts,
      List.range_succ, BoundingBox.volume])
    (by simp)
    (by norm_num [allSatisfied, triggerSatisfied, varianceOf, volumeOf, hitsOf,
      BoundingBox.volume])
    (by norm_num)
  exact h.1

/-- C6: a relative_error trigger evaluates to unsatisfied whenever the
current volume estimate is zero (the relative error is treated as infinite,
and the total evaluation function never raises), and any session that does
report convergence with a relative_error trigger attached has a nonzero
volume estimate for that trigger's domain. -/
theorem C6_relerr_zero_volume (vbox t : ℚ) (sc : SampleCount) (N d : ℕ)
    (classify : Point3D → Option ℕ) (cfg : SessionConfig)
    (fuel : ℕ) (sc₁ : SampleCount) (n₁ : ℕ) (sc' : SampleCount) (n' : ℕ)
    (hv : volumeOf vbox (hitsOf sc d) N = 0)
    (hmem : TriggerSpec.mk TriggerKind.relErr t d ∈ cfg.triggers)
    (hrun : runLoop classify cfg fuel sc₁ n₁ = (sc', n', EndStatus.converged)) :
    triggerSatisfied vbox sc N ⟨TriggerKind.relErr, t, d⟩ = false
    ∧ volumeOf cfg.box.volume (hitsOf sc' d) n' ≠ 0 := by
  constructor
  · simp only [triggerSatisfied, decide_eq_false_iff_not]
    intro hcon
    rw [hv] at hcon
    exact absurd hcon.1 (lt_irrefl 0)
  · rcases runLoop_converged_allSatisfied classify cfg fuel sc₁ n₁ sc' n' hrun with h | h
    · rw [h] at hmem
      simp at hmem
    · unfold allSatisfied at h
      have h2 : triggerSatisfied cfg.box.volume sc' n' ⟨TriggerKind.relErr, t, d⟩ = true :=
        List.all_eq_true.mp h _ hmem
      simp only [triggerSatisfied, decide_eq_true_eq] at h2
      exact ne_of_gt h2.1

/-- Witness for C6 at a concrete zero-volume state and a concrete converging
session with a relative-error trigger. -/
theorem C6_relerr_zero_volume_witness :
    triggerSatisfied 1 [(1, 0)] 5 ⟨TriggerKind.relErr, 1, 1⟩ = false
    ∧ volumeOf
        (SessionConfig.mk ⟨0, 0, 0, 1, 1, 1⟩ [1] 1 5 1
          [⟨TriggerKind.relErr, 1, 1⟩] 0).box.volume
        (hitsOf [(1, 1)] 1) 1 ≠ 0 :=
  C6_relerr_zero_volume 1 1 [(1, 0)] 5 1 (fun _ => some 1)
    ⟨⟨0, 0, 0, 1, 1, 1⟩, [1], 1, 5, 1, [⟨TriggerKind.relErr, 1, 1⟩], 0⟩
    6 (initCounts [1]) 0 [(1, 1)] 1
    (by norm_num [volumeOf, hitsOf])
    (by simp)
    (by norm_num [runLoop, checkNow, allSatisfied, triggerSatisfied, varianceOf,
      volumeOf, hitsOf, runBatch, batchPoints, tallyPoint, bump, initCounts,
      List.range_succ, BoundingBox.volume])

/-- C7: two sessions constructed with the same seed, the same bounding box,
the same batch size, the same domain set, and deterministic classifiers that
agree on every point produce identical per-batch SampleCount sequences. -/
theorem C7_determinism (box : BoundingBox) (c1 c2 : Point3D → Option ℕ) (seed : ℕ)
    (domains : List ℕ) (b : ℕ) (hc : ∀ p, c1 p = c2 p) (k : ℕ) :
    stateAfter box c1 seed domains b k = stateAfter box c2 seed domains b k := by
  induction k with
  | zero => rfl
  | succ k ih =>
    show (runBatch c1 (stateAfter box c1 seed domains b k).1
        (batchPoints box seed (stateAfter box c1 seed domains b k).2 b),
        (stateAfter box c1 seed domains b k).2 + b)
      = (runBatch c2 (stateAfter box c2 seed domains b k).1
        (batchPoints box seed (stateAfter box c2 seed domains b k).2 b),
        (stateAfter box c2 seed domains b k).2 + b)
    rw [ih, runBatch_congr c1 c2 hc]

/-- Witness for C7 with two syntactically different but pointwise equal
classifiers. -/
theorem C7_determinism_witness :
    stateAfter ⟨0, 0, 0, 1, 1, 1⟩ (fun _ => some 1) 0 [1] 1 2
      = stateAfter ⟨0, 0, 0, 1, 1, 1⟩ (fun p => if p.x ≤ p.x then some 1 else none) 0 [1] 1 2 :=
  C7_determinism ⟨0, 0, 0, 1, 1, 1⟩ (fun _ => some 1)
    (fun p => if p.x ≤ p.x then some 1 else none) 0 [1] 1 (fun p => by simp) 2

/-- C8: each processed sample mutates the SampleCount by exactly one
increment to exactly one tracked domain's count (a point outside every
domain changes nothing), other domains' counts are untouched, the total
tallied count grows by exactly one, and every domain's count is
monotonically non-decreasing from batch to batch. -/
theorem C8_single_increment (classify : Point3D → Option ℕ) (sc : SampleCount)
    (p p₀ : Point3D) (d d' : ℕ) (box : BoundingBox) (seed : ℕ) (domains : List ℕ)
    (b k dm : ℕ)
    (hnone : classify p₀ = none) (hsome : classify p = some d)
    (hnd : (keysOf sc).Nodup) (hmem : d ∈ keysOf sc) (hne : d' ≠ d) :
    tallyPoint classify sc p₀ = sc
    ∧ hitsOf (tallyPoint classify sc p) d = hitsOf sc d + 1
    ∧ hitsOf (tallyPoint classify sc p) d' = hitsOf sc d'
    ∧ sumHits (tallyPoint classify sc p) = sumHits sc + 1
    ∧ hitsOf (stateAfter box classify seed domains b k).1 dm
        ≤ hitsOf (stateAfter box classify seed domains b (k + 1)).1 dm := by
  refine ⟨by simp [tallyPoint, hnone], ?_, ?_, ?_, ?_⟩
  · simp only [tallyPoint, hsome]
    exact hitsOf_bump_self sc d hmem
  · simp only [tallyPoint, hsome]
    exact hitsOf_bump_ne sc d d' hne
  · simp only [tallyPoint, hsome]
    exact sumHits_bump sc d hnd hmem
  · show hitsOf (stateAfter box classify seed domains b k).1 dm
      ≤ hitsOf (runBatch classify (stateAfter box classify seed domains b k).1
          (batchPoints box seed (stateAfter box classify seed domains b k).2 b)) dm
    exact hitsOf_runBatch_le classify _ _ dm

/-- Witness for C8 with a classifier that rejects one concrete point and
maps another to domain 1. -/
theorem C8_single_increment_witness :
    tallyPoint (fun q => if q.x = 0 then none else some 1) [(1, 2), (2, 3)] ⟨0, 0, 0⟩
        = [(1, 2), (2, 3)]
    ∧ hitsOf (tallyPoint (fun q => if q.x = 0 then none else some 1)
        [(1, 2), (2, 3)] ⟨1, 0, 0⟩) 1 = hitsOf [(1, 2), (2, 3)] 1 + 1
    ∧ hitsOf (tallyPoint (fun q => if q.x = 0 then none else some 1)
        [(1, 2), (2, 3)] ⟨1, 0, 0⟩) 2 = hitsOf [(1, 2), (2, 3)] 2
    ∧ sumHits (tallyPoint (fun q => if q.x = 0 then none else some 1)
        [(1, 2), (2, 3)] ⟨1, 0, 0⟩) = sumHits [(1, 2), (2, 3)] + 1
    ∧ hitsOf (stateAfter ⟨0, 0, 0, 1, 1, 1⟩ (fun q => if q.x = 0 then none else some 1)
          0 [1] 1 0).1 1
        ≤ hitsOf (stateAfter ⟨0, 0, 0, 1, 1, 1⟩ (fun q => if q.x = 0 then none else some 1)
          0 [1] 1 (0 + 1)).1 1 :=
  C8_single_increment (fun q => if q.x = 0 then none else some 1) [(1, 2), (2, 3)]
    ⟨1, 0, 0⟩ ⟨0, 0, 0⟩ 1 2 ⟨0, 0, 0, 1, 1, 1⟩ 0 [1] 1 0 1
    (by norm_num) (by norm_num) (by decide) (by decide) (by decide)

/-- C9: a session whose final state has reached max_samples with some
attached trigger still unsatisfied terminates in the MaxSamplesReached
state (not an error), and its frozen Results carry the warning flag while
still containing the per-domain volume and variance estimates. -/
theorem C9_max_samples_partial (classify : Point3D → Option ℕ) (cfg : SessionConfig)
    (fuel : ℕ) (sc : SampleCount) (n : ℕ) (sc' : SampleCount) (n' : ℕ)
    (st : EndStatus) (t : TriggerSpec)
    (hmem : t ∈ cfg.triggers)
    (_hmax : cfg.maxSamples ≤ n')
    (hunsat : triggerSatisfied cfg.box.volume sc' n' t = false)
    (hrun : runLoop classify cfg fuel sc n = (sc', n', st)) :
    st = EndStatus.maxSamplesReached
    ∧ (finalize cfg.box.volume sc' n' st).incomplete = true
    ∧ (finalize cfg.box.volume sc' n' st).perDomain = estimatesOf cfg.box.volume sc' n' := by
  have hst : st = EndStatus.maxSamplesReached := by
    cases st with
    | maxSamplesReached => rfl
    | converged =>
      rcases runLoop_converged_allSatisfied classify cfg fuel sc n sc' n' hrun with h | h
      · rw [h] at hmem
        simp at hmem
      · unfold allSatisfied at h
        have h2 : triggerSatisfied cfg.box.volume sc' n' t = true :=
          List.all_eq_true.mp h _ hmem
        rw [hunsat] at h2
        simp at h2
  refine ⟨hst, ?_, rfl⟩
  rw [hst]
  rfl

/-- Witness for C9: a session with a never-hit domain and a relative-error
trigger runs to max_samples and ends with the warning flag set. -/
theorem C9_max_samples_partial_witness :
    EndStatus.maxSamplesReached = EndStatus.maxSamplesReached
    ∧ (finalize
        (SessionConfig.mk ⟨0, 0, 0, 1, 1, 1⟩ [1] 2 3 1 [⟨TriggerKind.relErr, 1, 1⟩] 0).box.volume
        [(1, 0)] 4 EndStatus.maxSamplesReached).incomplete = true
    ∧ (finalize
        (SessionConfig.mk ⟨0, 0, 0, 1, 1, 1⟩ [1] 2 3 1 [⟨TriggerKind.relErr, 1, 1⟩] 0).box.volume
        [(1, 0)] 4 EndStatus.maxSamplesReached).perDomain
      = estimatesOf
        (SessionConfig.mk ⟨0, 0, 0, 1, 1, 1⟩ [1] 2 3 1 [⟨TriggerKind.relErr, 1, 1⟩] 0).box.volume
        [(1, 0)] 4 :=
  C9_max_samples_partial (fun _ => none)
    ⟨⟨0, 0, 0, 1, 1, 1⟩, [1], 2, 3, 1, [⟨TriggerKind.relErr, 1, 1⟩], 0⟩
    4 (initCounts [1]) 0 [(1, 0)] 4 EndStatus.maxSamplesReached ⟨TriggerKind.relErr, 1, 1⟩
    (by simp)
    (by norm_num)
    (by norm_num [triggerSatisfied, volumeOf, varianceOf, hitsOf, BoundingBox.volume])
    (by norm_num [runLoop, checkNow, allSatisfied, triggerSatisfied, varianceOf,
      volumeOf, hitsOf, runBatch, batchPoints, tallyPoint, bump, initCounts,
      List.range_succ, BoundingBox.volume])
